import Mathlib

/-!
Shallow embedding of the ProfitTracking application (`src/app.py`).

The app is a Streamlit dashboard over two pandas dataframes persisted to CSV:
a room ledger (`room_data.csv`, one row per room) and a payment journal
(`payments_data.csv`, append-only).  The business logic embedded here is:

* `load_data`            (app.py 11-28): load the ledger, or create five
  default rooms "Room 1".."Room 5" when no file exists;
* the edit-form submit handler   (app.py 105-117): overwrite every field of
  the selected room with the form values, including "Amount Paid";
* the payment-form submit handler (app.py 132-154): append a payment row,
  add the amount to the room's "Amount Paid", and advance the room's
  "Due Date" by `months_paid` calendar months (`pd.DateOffset(months=n)`);
* `room_payments`        (app.py 162): filter the journal by room and sort
  by "Payment Date" descending;
* `monthly_profit`       (app.py 179-182): per payment `amount / months`,
  grouped by the payment date's year-month, summed;
* `total_profit_per_room` (app.py 201): sum of `amount` per room.

Monetary amounts are modelled as `ℚ` (the source uses floats; the spec asks
for a drift-free representation and all claim scenarios are exact).
Calendar dates are modelled as year/month/day triples; `pd.DateOffset`
month addition is modelled by `addMonths` with end-of-month clamping.
Streamlit widget constraints (`min_value` / `max_value` of the number
inputs) are modelled by the `widgetOK` predicate on operations.
-/

/-- A calendar date, as carried by the pandas `Timestamp` columns. -/
structure Date where
  year : Nat
  month : Nat
  day : Nat
deriving DecidableEq, Repr

/-- Gregorian leap-year rule, as used by `pandas`/`datetime`. -/
def isLeap (y : Nat) : Bool :=
  (y % 4 == 0 && y % 100 != 0) || (y % 400 == 0)

/-- Number of days in a month of a given year. -/
def daysInMonth (y m : Nat) : Nat :=
  if m = 2 then (if isLeap y then 29 else 28)
  else if m = 4 ∨ m = 6 ∨ m = 9 ∨ m = 11 then 30
  else 31

/-- Model of `pd.DateOffset(months := k)` (app.py line 151): advance the date by `k`
calendar months, clamping the day to the end of the target month
(e.g. Jan 31 + 1 month = Feb 28/29). -/
def addMonths (d : Date) (k : Nat) : Date :=
  let t := d.year * 12 + (d.month - 1) + k
  let y := t / 12
  let m := t % 12 + 1
  { year := y, month := m, day := min d.day (daysInMonth y m) }

/-- Strict chronological order on dates (lexicographic on year, month, day),
the order underlying the pandas `Timestamp` comparisons. -/
def Date.lt (a b : Date) : Prop :=
  a.year < b.year ∨
    (a.year = b.year ∧ (a.month < b.month ∨ (a.month = b.month ∧ a.day < b.day)))

/-- Non-strict chronological order on dates. -/
def Date.le (a b : Date) : Prop := Date.lt a b ∨ a = b

instance (a b : Date) : Decidable (Date.lt a b) := by
  unfold Date.lt; infer_instance

instance (a b : Date) : Decidable (Date.le a b) := by
  unfold Date.le; infer_instance

/-- One row of the room ledger dataframe (`room_data.csv`). -/
structure Room where
  room : String
  tenantName : String
  contactInfo : String
  rentPrice : ℚ
  amountPaid : ℚ
  contractTerm : String
  startDate : Date
  endDate : Date
  dueDate : Date
  notes : String
deriving DecidableEq, Repr

/-- One row of the payment journal dataframe (`payments_data.csv`). -/
structure Payment where
  room : String
  paymentDate : Date
  amountPaid : ℚ
  monthsPaid : Nat
deriving DecidableEq, Repr

/-- The default ledger created by `load_data` when no data file exists
(app.py 15-26): five rooms "Room 1".."Room 5", vacant, zero balances,
contract term "1 month", and today's date in all three date columns. -/
def defaultRooms (today : Date) : List Room :=
  (List.range 5).map fun i =>
    { room := "Room " ++ toString (i + 1)
      tenantName := ""
      contactInfo := ""
      rentPrice := 0
      amountPaid := 0
      contractTerm := "1 month"
      startDate := today
      endDate := today
      dueDate := today
      notes := "" }

/-- Model of `load_data` (app.py 11-28).  The persisted ledger file is modelled as
`Option (List Room)` (`none` = no file on disk).  When the file exists it is
returned as-is; otherwise the default five rooms are created and written
back.  The result is the loaded dataframe together with the store left on
disk. -/
def load_data (store : Option (List Room)) (today : Date) :
    List Room × Option (List Room) :=
  match store with
  | some df => (df, some df)
  | none => (defaultRooms today, some (defaultRooms today))

/-- Update the first element of a list satisfying `p` by `f`, leaving every
other element in place.  This is `df.at[idx, ...] = ...` after
`idx = df[df["Room"] == name].index[0]` (app.py 106, 144): pandas takes the
first row whose "Room" column matches and mutates that row only. -/
def updateFirst (p : α → Bool) (f : α → α) : List α → List α
  | [] => []
  | x :: xs => if p x then f x :: xs else x :: updateFirst p f xs

/-- Model of `df[df["Room"] == name].iloc[0]`: the first ledger row for a room name. -/
def getRoom (rooms : List Room) (name : String) : Option Room :=
  rooms.find? fun r => r.room == name

/-- The in-memory state of the app: the room ledger dataframe and the
payment journal dataframe (journal rows in insertion order). -/
structure AppState where
  rooms : List Room
  payments : List Payment
deriving DecidableEq, Repr

/-- The values submitted through the edit form (app.py 84-103); the form
offers every column of the selected room, including "Amount Paid". -/
structure EditFields where
  tenantName : String
  contactInfo : String
  rentPrice : ℚ
  amountPaid : ℚ
  contractTerm : String
  startDate : Date
  endDate : Date
  dueDate : Date
  notes : String
deriving DecidableEq, Repr

/-- The edit-form submit handler (app.py 105-117): overwrite every field of
the first room named `name` with the form values. -/
def edit_form_submit (rooms : List Room) (name : String) (f : EditFields) :
    List Room :=
  updateFirst (fun r => r.room == name)
    (fun r =>
      { r with
        tenantName := f.tenantName
        contactInfo := f.contactInfo
        rentPrice := f.rentPrice
        amountPaid := f.amountPaid
        contractTerm := f.contractTerm
        startDate := f.startDate
        endDate := f.endDate
        dueDate := f.dueDate
        notes := f.notes })
    rooms

/-- The payment-form submit handler (app.py 132-154): append the new payment
row to the journal (`pd.concat`, line 139), then add the amount to the
room's "Amount Paid" (line 145) and advance its "Due Date" by `months`
calendar months (line 151).  The handler performs no validation of its own;
bounds come only from the form widgets. -/
def payment_submitted (s : AppState) (payRoom : String) (date : Date)
    (amount : ℚ) (months : Nat) : AppState :=
  { rooms :=
      updateFirst (fun r => r.room == payRoom)
        (fun r =>
          { r with
            amountPaid := r.amountPaid + amount
            dueDate := addMonths r.dueDate months })
        s.rooms
    payments := s.payments ++ [⟨payRoom, date, amount, months⟩] }

/-- An operation issued through the public interface: an edit-form submit or
a payment-form submit. -/
inductive Op where
  | edit (room : String) (f : EditFields)
  | pay (room : String) (date : Date) (amount : ℚ) (months : Nat)
deriving DecidableEq, Repr

/-- Apply one interface operation to the app state. -/
def applyOp (s : AppState) : Op → AppState
  | .edit room f => { s with rooms := edit_form_submit s.rooms room f }
  | .pay room date amount months => payment_submitted s room date amount months

/-- Apply a sequence of interface operations left to right. -/
def applyOps (s : AppState) (ops : List Op) : AppState := ops.foldl applyOp s

/-- The constraints the Streamlit form widgets place on submitted values:
the edit form has `min_value=0.0` on "Rent Price" and "Amount Paid"
(app.py 90-91) and a fixed selectbox for "Contract Term" (92-97); the
payment form has `min_value=0.0` on "Payment Amount" (127) and
`min_value=1, max_value=24` on "Months Paid" (128).  Note the payment
amount minimum is zero inclusive: the widgets reject negative amounts but
accept an amount of `0`. -/
def Op.widgetOK : Op → Prop
  | .edit _ f =>
      0 ≤ f.rentPrice ∧ 0 ≤ f.amountPaid ∧
        f.contractTerm ∈ ["1 month", "3 months", "6 months", "1 year"]
  | .pay _ _ amount months => 0 ≤ amount ∧ 1 ≤ months ∧ months ≤ 24

instance : ∀ op : Op, Decidable op.widgetOK := by
  intro op; unfold Op.widgetOK; cases op <;> infer_instance

/-- Model of `total_profit_per_room` (app.py 201), read off at one room:
`payments_df.groupby('Room')['Amount Paid'].sum()` for that room. -/
def total_paid_for_room (ps : List Payment) (room : String) : ℚ :=
  ((ps.filter fun p => p.room == room).map Payment.amountPaid).sum

/-- The "Year-Month" key of a payment (app.py 181):
`payment_date.to_period('M')` rendered as "YYYY-MM". -/
def yearMonth (d : Date) : String :=
  toString d.year ++ "-" ++ (if d.month < 10 then "0" else "") ++ toString d.month

/-- Model of `monthly_profit` (app.py 179-182), read off at one year-month bucket:
each payment contributes `amount / months` ("Monthly Profit", line 180) to
the bucket of its own payment date's year-month (line 181), and buckets are
summed (line 182). -/
def monthly_profit (ps : List Payment) (ym : String) : ℚ :=
  ((ps.filter fun p => yearMonth p.paymentDate == ym).map
    fun p => p.amountPaid / (p.monthsPaid : ℚ)).sum

example : addMonths ⟨2024, 1, 1⟩ 1 = ⟨2024, 2, 1⟩ := by decide
example : addMonths ⟨2024, 1, 31⟩ 1 = ⟨2024, 2, 29⟩ := by decide
example : addMonths ⟨2023, 1, 31⟩ 1 = ⟨2023, 2, 28⟩ := by decide
example : addMonths ⟨2023, 11, 30⟩ 3 = ⟨2024, 2, 29⟩ := by decide
example : (defaultRooms ⟨2024, 1, 1⟩).length = 5 := by decide
example : getRoom (defaultRooms ⟨2024, 1, 1⟩) "Room 3" ≠ none := by decide

theorem Date.lt_total (a b : Date) : Date.lt a b ∨ a = b ∨ Date.lt b a := by
  obtain ⟨ya, ma, da⟩ := a
  obtain ⟨yb, mb, db⟩ := b
  simp only [Date.lt, Date.mk.injEq]
  omega

theorem Date.lt_trans {a b c : Date} (h1 : Date.lt a b) (h2 : Date.lt b c) :
    Date.lt a c := by
  unfold Date.lt at *
  omega

theorem Date.le_total (a b : Date) : Date.le a b ∨ Date.le b a := by
  rcases Date.lt_total a b with h | h | h
  · exact Or.inl (Or.inl h)
  · exact Or.inl (Or.inr h)
  · exact Or.inr (Or.inl h)

theorem Date.le_trans {a b c : Date} (h1 : Date.le a b) (h2 : Date.le b c) :
    Date.le a c := by
  rcases h1 with h1 | rfl
  · rcases h2 with h2 | rfl
    · exact Or.inl (Date.lt_trans h1 h2)
    · exact Or.inl h1
  · exact h2

/-- The descending comparison used to model
`sort_values(by="Payment Date", ascending=False)` (app.py 162): row `a` may
precede row `b` exactly when the payment date of `a` is no earlier than that of `b`. -/
def dateGE (a b : Payment) : Prop := Date.le b.paymentDate a.paymentDate

instance : DecidableRel dateGE := by
  intro a b; unfold dateGE; infer_instance

instance : IsTotal Payment dateGE := by
  constructor
  intro a b
  exact Date.le_total b.paymentDate a.paymentDate

instance : IsTrans Payment dateGE := by
  constructor
  intro a b c h1 h2
  exact Date.le_trans h2 h1

/-- Model of `room_payments` (app.py 162): filter the journal to the
selected room, then `sort_values(by="Payment Date", ascending=False)`.  The
source passes no `kind`, so pandas applies its default unstable quicksort
and the relative order of rows with equal payment dates is unspecified; a
deterministic model must pick one output, and this one is the stable
descending sort by payment date — the output of the deterministic pandas
stable sort path (`kind="mergesort"`, which reverses the rows, stably
argsorts ascending, and reverses back), under which equal-date rows keep
their insertion order, earliest inserted first.  Only date-descending
order, membership and emptiness — properties shared by every faithful
determinization — are claimed of the history; the tie order is exhibited
separately as model behavior. -/
def room_payments (ps : List Payment) (room : String) : List Payment :=
  List.insertionSort dateGE (ps.filter fun p => p.room == room)

/-- C5 is false as the spec states it: the source sorts the history with
the default unstable pandas quicksort, which guarantees no order among equal
payment dates, and the deterministic stable sort path produces the
opposite of the claimed order — two same-date payments for Room 1 come
back with the earliest-inserted payment (amount 100) first, not the most
recently inserted one (amount 200) first. -/
theorem c5_tie_order_counterexample :
    room_payments
        [⟨"Room 1", ⟨2024, 1, 15⟩, 100, 1⟩,
          ⟨"Room 1", ⟨2024, 1, 15⟩, 200, 1⟩] "Room 1" =
      [⟨"Room 1", ⟨2024, 1, 15⟩, 100, 1⟩,
        ⟨"Room 1", ⟨2024, 1, 15⟩, 200, 1⟩] ∧
    (⟨"Room 1", ⟨2024, 1, 15⟩, 100, 1⟩ : Payment) ≠
      ⟨"Room 1", ⟨2024, 1, 15⟩, 200, 1⟩ := by
  constructor
  · rfl
  · intro h
    rw [Payment.mk.injEq] at h
    exact absurd h.2.2.1 (by norm_num)

/-- C5 (amended): `history_for_room` returns all payments recorded for the
room — a permutation of the journal rows for the room — ordered by payment date
descending; the code guarantees no particular order among rows with equal
payment dates (the default pandas sort is unstable; its stable path yields
earliest-inserted first, see `c5_tie_order_counterexample`); and for a room
with no payments it returns the empty sequence rather than an error. -/
theorem c5_history_sorted_desc (ps : List Payment) (room : String) :
    (room_payments ps room).Perm (ps.filter fun p => p.room == room) ∧
    (room_payments ps room).Pairwise
      (fun a b => Date.le b.paymentDate a.paymentDate) ∧
    ((ps.filter fun p => p.room == room) = [] → room_payments ps room = []) := by
  refine ⟨List.perm_insertionSort dateGE _,
    List.sorted_insertionSort dateGE _, ?_⟩
  intro h
  unfold room_payments
  rw [h]
  rfl

/-- Concrete instance of the history claim: a room with no payments yields
the empty history. -/
theorem c5_history_sorted_desc_witness :
    room_payments [⟨"Room 1", ⟨2024, 1, 15⟩, 100, 1⟩] "Room 2" = [] :=
  (c5_history_sorted_desc [⟨"Room 1", ⟨2024, 1, 15⟩, 100, 1⟩] "Room 2").2.2
    (by decide)

/-- C3: the monthly profit summary credits each payment's `amount / months`
to the year-month bucket of its own payment date and to no other bucket;
a single payment of 1,200,000 over 3 months dated 2024-03-10 yields exactly
400,000 in bucket "2024-03" and 0 everywhere else. -/
theorem c3_monthly_profit_single_bucket :
    (∀ (ps : List Payment) (p : Payment),
      monthly_profit (ps ++ [p]) (yearMonth p.paymentDate) =
        monthly_profit ps (yearMonth p.paymentDate) +
          p.amountPaid / (p.monthsPaid : ℚ)) ∧
    (∀ (ps : List Payment) (p : Payment) (ym : String),
      ym ≠ yearMonth p.paymentDate →
        monthly_profit (ps ++ [p]) ym = monthly_profit ps ym) ∧
    monthly_profit [⟨"Room 1", ⟨2024, 3, 10⟩, 1200000, 3⟩] "2024-03" = 400000 ∧
    (∀ ym, ym ≠ "2024-03" →
      monthly_profit [⟨"Room 1", ⟨2024, 3, 10⟩, 1200000, 3⟩] ym = 0) := by
  refine ⟨?_, ?_, ?_, ?_⟩
  · intro ps p
    simp [monthly_profit, List.filter_append]
  · intro ps p ym h
    have hb : (yearMonth p.paymentDate == ym) = false := by
      simp [Ne.symm h]
    simp [monthly_profit, List.filter_append, hb]
  · have hb : (yearMonth (⟨2024, 3, 10⟩ : Date) == "2024-03") = true := by decide
    simp [monthly_profit, List.filter, hb]
    norm_num
  · intro ym h
    have hb : (yearMonth (⟨2024, 3, 10⟩ : Date) == ym) = false := by
      have : yearMonth (⟨2024, 3, 10⟩ : Date) = "2024-03" := by decide
      rw [this]
      simp [Ne.symm h]
    simp [monthly_profit, List.filter, hb]

/-- Concrete instance of the monthly-profit claim: the 2024-04 bucket is
untouched both by appending the scenario payment and in the scenario
summary. -/
theorem c3_monthly_profit_single_bucket_witness :
    monthly_profit ([] ++ [⟨"Room 1", ⟨2024, 3, 10⟩, 1200000, 3⟩]) "2024-04" =
        monthly_profit [] "2024-04" ∧
      monthly_profit [⟨"Room 1", ⟨2024, 3, 10⟩, 1200000, 3⟩] "2024-04" = 0 :=
  ⟨c3_monthly_profit_single_bucket.2.1 [] ⟨"Room 1", ⟨2024, 3, 10⟩, 1200000, 3⟩
      "2024-04" (by decide),
    c3_monthly_profit_single_bucket.2.2.2 "2024-04" (by decide)⟩

theorem find?_updateFirst_self (p : α → Bool) (f : α → α)
    (hf : ∀ x, p (f x) = p x) :
    ∀ l : List α, (updateFirst p f l).find? p = (l.find? p).map f := by
  intro l
  induction l with
  | nil => rfl
  | cons x xs ih =>
      by_cases hx : p x
      · rw [updateFirst, if_pos hx, List.find?_cons_of_pos _ ((hf x).trans hx),
          List.find?_cons_of_pos _ hx]
        rfl
      · rw [updateFirst, if_neg hx, List.find?_cons_of_neg _ hx,
          List.find?_cons_of_neg _ hx, ih]

theorem find?_updateFirst_other (p q : α → Bool) (f : α → α)
    (hq : ∀ x, q (f x) = q x) (hpq : ∀ x, p x = true → q x = false) :
    ∀ l : List α, (updateFirst p f l).find? q = l.find? q := by
  intro l
  induction l with
  | nil => rfl
  | cons x xs ih =>
      by_cases hx : p x
      · have hqx : q x = false := hpq x hx
        rw [updateFirst, if_pos hx,
          List.find?_cons_of_neg _ (by rw [hq x, hqx]; exact Bool.false_ne_true),
          List.find?_cons_of_neg _ (by rw [hqx]; exact Bool.false_ne_true)]
      · by_cases hqx : q x
        · rw [updateFirst, if_neg hx, List.find?_cons_of_pos _ hqx,
            List.find?_cons_of_pos _ hqx]
        · rw [updateFirst, if_neg hx, List.find?_cons_of_neg _ hqx,
            List.find?_cons_of_neg _ hqx, ih]

/-- How the ledger lookup changes across a payment submit: the looked-up
room is updated (amount added, due date advanced) when it is the paid room,
and untouched otherwise. -/
theorem getRoom_payment_submitted (s : AppState) (payRoom : String)
    (date : Date) (amount : ℚ) (months : Nat) (name : String) :
    getRoom (payment_submitted s payRoom date amount months).rooms name =
      if name = payRoom then
        (getRoom s.rooms name).map fun r =>
          { r with amountPaid := r.amountPaid + amount
                   dueDate := addMonths r.dueDate months }
      else getRoom s.rooms name := by
  simp only [getRoom, payment_submitted]
  by_cases h : name = payRoom
  · subst h
    rw [if_pos rfl]
    exact find?_updateFirst_self (fun r => r.room == name)
      (fun r =>
        { r with amountPaid := r.amountPaid + amount
                 dueDate := addMonths r.dueDate months })
      (fun x => rfl) s.rooms
  · rw [if_neg h]
    refine find?_updateFirst_other (fun r => r.room == payRoom)
      (fun r => r.room == name)
      (fun r =>
        { r with amountPaid := r.amountPaid + amount
                 dueDate := addMonths r.dueDate months })
      (fun x => rfl) (fun x hx => ?_) s.rooms
    have hxr : x.room = payRoom := by simpa using hx
    simp [hxr, Ne.symm h]

/-- C7: loading the ledger is idempotent.  `load_data` on the store left
behind by any previous `load_data` call returns exactly the previous
result: the existing roster is returned unchanged, no room is created and
no field is modified. -/
theorem c7_load_data_idempotent (store : Option (List Room))
    (today today2 : Date) :
    load_data (load_data store today).2 today2 = load_data store today := by
  cases store <;> rfl

/-- C8: on a fresh store `load_data` creates exactly the five rooms
"Room 1".."Room 5", each vacant with zero amount paid and rent price,
contract term "1 month", and today's date as start, end and due date. -/
theorem c8_fresh_ledger_five_rooms (today : Date) :
    (load_data none today).1 = defaultRooms today ∧
    (defaultRooms today).map Room.room =
      ["Room 1", "Room 2", "Room 3", "Room 4", "Room 5"] ∧
    ∀ r ∈ defaultRooms today,
      r.tenantName = "" ∧ r.contactInfo = "" ∧ r.amountPaid = 0 ∧
        r.rentPrice = 0 ∧ r.contractTerm = "1 month" ∧ r.startDate = today ∧
        r.endDate = today ∧ r.dueDate = today ∧ r.notes = "" := by
  refine ⟨rfl, rfl, ?_⟩
  intro r hr
  simp only [defaultRooms, List.mem_map] at hr
  obtain ⟨i, -, rfl⟩ := hr
  exact ⟨rfl, rfl, rfl, rfl, rfl, rfl, rfl, rfl, rfl⟩

/-- Concrete instance of the fresh-ledger claim, at the first room of the
default roster. -/
theorem c8_fresh_ledger_five_rooms_witness :
    (defaultRooms ⟨2024, 1, 1⟩).map Room.room =
        ["Room 1", "Room 2", "Room 3", "Room 4", "Room 5"] ∧
      ∀ r ∈ defaultRooms ⟨2024, 1, 1⟩, r.amountPaid = 0 :=
  ⟨(c8_fresh_ledger_five_rooms ⟨2024, 1, 1⟩).2.1,
    fun r hr => ((c8_fresh_ledger_five_rooms ⟨2024, 1, 1⟩).2.2 r hr).2.2.1⟩

/-- C2: applying a valid payment (positive amount, months within the widget
bounds) to an existing room adds the amount to the room's amount paid and
advances its due date by exactly that many calendar months, with standard
month-end clamping (Jan 31 + 1 month = Feb 29 in 2024); in particular a
1,000,000 payment with months = 1 on a fresh room with due date 2024-01-01
yields amount paid 1,000,000 and due date 2024-02-01. -/
theorem c2_apply_payment_adds_and_advances :
    (∀ (s : AppState) (payRoom : String) (date : Date) (amount : ℚ)
        (months : Nat) (r : Room),
      getRoom s.rooms payRoom = some r → 0 < amount → 1 ≤ months →
        months ≤ 24 →
        getRoom (payment_submitted s payRoom date amount months).rooms
            payRoom =
          some { r with amountPaid := r.amountPaid + amount
                        dueDate := addMonths r.dueDate months }) ∧
    addMonths ⟨2024, 1, 1⟩ 1 = ⟨2024, 2, 1⟩ ∧
    addMonths ⟨2024, 1, 31⟩ 1 = ⟨2024, 2, 29⟩ ∧
    ((getRoom (payment_submitted ⟨defaultRooms ⟨2024, 1, 1⟩, []⟩ "Room 1"
          ⟨2024, 1, 15⟩ 1000000 1).rooms "Room 1").map Room.amountPaid =
        some 1000000 ∧
      (getRoom (payment_submitted ⟨defaultRooms ⟨2024, 1, 1⟩, []⟩ "Room 1"
          ⟨2024, 1, 15⟩ 1000000 1).rooms "Room 1").map Room.dueDate =
        some ⟨2024, 2, 1⟩) := by
  refine ⟨?_, by decide, by decide, ?_⟩
  · intro s payRoom date amount months r hr _ _ _
    rw [getRoom_payment_submitted, if_pos rfl, hr]
    rfl
  · have key : getRoom (payment_submitted ⟨defaultRooms ⟨2024, 1, 1⟩, []⟩
        "Room 1" ⟨2024, 1, 15⟩ 1000000 1).rooms "Room 1" =
        some { room := "Room 1", tenantName := "", contactInfo := "",
               rentPrice := 0, amountPaid := 0 + 1000000,
               contractTerm := "1 month", startDate := ⟨2024, 1, 1⟩,
               endDate := ⟨2024, 1, 1⟩, dueDate := addMonths ⟨2024, 1, 1⟩ 1,
               notes := "" } := rfl
    rw [key]
    constructor
    · simp
    · show some (addMonths ⟨2024, 1, 1⟩ 1) = some ⟨2024, 2, 1⟩
      exact congrArg some (by decide)

/-- Concrete instance of the payment-application claim, at scenario B's
inputs. -/
theorem c2_apply_payment_adds_and_advances_witness :
    getRoom (payment_submitted ⟨defaultRooms ⟨2024, 1, 1⟩, []⟩ "Room 1"
        ⟨2024, 1, 15⟩ 1000000 1).rooms "Room 1" =
      some { room := "Room 1", tenantName := "", contactInfo := "",
             rentPrice := 0, amountPaid := 0 + 1000000,
             contractTerm := "1 month", startDate := ⟨2024, 1, 1⟩,
             endDate := ⟨2024, 1, 1⟩, dueDate := addMonths ⟨2024, 1, 1⟩ 1,
             notes := "" } :=
  c2_apply_payment_adds_and_advances.1 ⟨defaultRooms ⟨2024, 1, 1⟩, []⟩
    "Room 1" ⟨2024, 1, 15⟩ 1000000 1
    { room := "Room 1", tenantName := "", contactInfo := "", rentPrice := 0,
      amountPaid := 0, contractTerm := "1 month", startDate := ⟨2024, 1, 1⟩,
      endDate := ⟨2024, 1, 1⟩, dueDate := ⟨2024, 1, 1⟩, notes := "" }
    rfl (by norm_num) (by decide) (by decide)

/-- Advancing a date by at least one calendar month yields a strictly later
date: the year-month pair strictly increases, whatever day clamping does. -/
theorem Date.lt_addMonths (d : Date) (k : Nat) (hk : 1 ≤ k) :
    Date.lt d (addMonths d k) := by
  unfold addMonths Date.lt
  dsimp only
  omega

/-- An operation that is a payment submit with at least one month paid
(the payment form cannot submit fewer: `min_value=1`, app.py 128). -/
def payOk : Op → Prop
  | .edit _ _ => False
  | .pay _ _ _ months => 1 ≤ months

/-- C6: across any sequence of payment submissions, each covering at least
one month, a room's due date never decreases: whatever due date a room ends
with is no earlier than the one it started with. -/
theorem c6_due_date_monotone (ops : List Op) :
    ∀ (s : AppState) (name : String) (r r' : Room),
      (∀ op ∈ ops, payOk op) → getRoom s.rooms name = some r →
        getRoom (applyOps s ops).rooms name = some r' →
        Date.le r.dueDate r'.dueDate := by
  induction ops with
  | nil =>
      intro s name r r' _ hr hr'
      rw [applyOps, List.foldl_nil] at hr'
      rw [hr] at hr'
      obtain rfl := Option.some.injEq .. ▸ hr'.symm
      exact Or.inr rfl
  | cons op ops ih =>
      intro s name r r' hops hr hr'
      rw [applyOps, List.foldl_cons] at hr'
      match op with
      | .edit _ _ => exact absurd (hops _ (List.mem_cons_self _ _)) id
      | .pay payRoom date amount months =>
          have hm : 1 ≤ months := hops _ (List.mem_cons_self _ _)
          have hstep := getRoom_payment_submitted s payRoom date amount
            months name
          by_cases hn : name = payRoom
          · rw [if_pos hn, hr] at hstep
            have hle : Date.le r.dueDate
                (addMonths r.dueDate months) :=
              Or.inl (Date.lt_addMonths _ _ hm)
            exact Date.le_trans hle
              (ih _ name _ r' (fun o ho => hops o (List.mem_cons_of_mem _ ho))
                hstep hr')
          · rw [if_neg hn, hr] at hstep
            exact ih _ name r r' (fun o ho => hops o (List.mem_cons_of_mem _ ho))
              hstep hr'

/-- Concrete instance of the due-date monotonicity claim: one payment on the
fresh ledger moves Room 1's due date from 2024-01-01 to 2024-02-01. -/
theorem c6_due_date_monotone_witness :
    Date.le ⟨2024, 1, 1⟩ ⟨2024, 2, 1⟩ :=
  c6_due_date_monotone [.pay "Room 1" ⟨2024, 1, 15⟩ 1000000 1]
    ⟨defaultRooms ⟨2024, 1, 1⟩, []⟩ "Room 1"
    { room := "Room 1", tenantName := "", contactInfo := "", rentPrice := 0,
      amountPaid := 0, contractTerm := "1 month", startDate := ⟨2024, 1, 1⟩,
      endDate := ⟨2024, 1, 1⟩, dueDate := ⟨2024, 1, 1⟩, notes := "" }
    { room := "Room 1", tenantName := "", contactInfo := "", rentPrice := 0,
      amountPaid := 0 + 1000000, contractTerm := "1 month",
      startDate := ⟨2024, 1, 1⟩, endDate := ⟨2024, 1, 1⟩,
      dueDate := ⟨2024, 2, 1⟩, notes := "" }
    (by intro op hop; rw [List.mem_singleton] at hop; subst hop; exact le_rfl)
    rfl rfl

theorem updateFirst_length (p : α → Bool) (f : α → α) :
    ∀ l : List α, (updateFirst p f l).length = l.length := by
  intro l
  induction l with
  | nil => rfl
  | cons x xs ih =>
      by_cases hx : p x
      · rw [updateFirst, if_pos hx, List.length_cons, List.length_cons]
      · rw [updateFirst, if_neg hx, List.length_cons, List.length_cons, ih]

theorem getElem?_updateFirst (p : α → Bool) (f : α → α) :
    ∀ (l : List α) (i : Nat),
      (updateFirst p f l)[i]? = l[i]? ∨
        ∃ x, l[i]? = some x ∧ p x = true ∧
          (updateFirst p f l)[i]? = some (f x) := by
  intro l
  induction l with
  | nil => intro i; exact Or.inl rfl
  | cons x xs ih =>
      intro i
      by_cases hx : p x
      · match i with
        | 0 => exact Or.inr ⟨x, by simp, hx, by rw [updateFirst, if_pos hx]; simp⟩
        | i + 1 =>
            rw [updateFirst, if_pos hx, List.getElem?_cons_succ,
              List.getElem?_cons_succ]
            exact Or.inl rfl
      · match i with
        | 0 =>
            rw [updateFirst, if_neg hx, List.getElem?_cons_zero,
              List.getElem?_cons_zero]
            exact Or.inl rfl
        | i + 1 =>
            rw [updateFirst, if_neg hx, List.getElem?_cons_succ,
              List.getElem?_cons_succ]
            exact ih i

/-- C9: frame property of the payment handler.  Submitting a payment
appends exactly one record to the journal, leaving every previously
recorded payment identical, and leaves the ledger the same length with
every row either completely untouched or — for a row whose room matches the
paid room — changed only in its amount-paid and due-date fields, all other
fields (name, tenant, contact, rent, contract term, start/end date, notes)
kept verbatim. -/
theorem c9_payment_frame (s : AppState) (payRoom : String) (date : Date)
    (amount : ℚ) (months : Nat) :
    (payment_submitted s payRoom date amount months).payments =
        s.payments ++ [⟨payRoom, date, amount, months⟩] ∧
      (payment_submitted s payRoom date amount months).rooms.length =
        s.rooms.length ∧
      ∀ i : Nat,
        (payment_submitted s payRoom date amount months).rooms[i]? =
            s.rooms[i]? ∨
          ∃ r, s.rooms[i]? = some r ∧ r.room = payRoom ∧
            (payment_submitted s payRoom date amount months).rooms[i]? =
              some { r with amountPaid := r.amountPaid + amount
                            dueDate := addMonths r.dueDate months } := by
  refine ⟨rfl, updateFirst_length _ _ _, fun i => ?_⟩
  rcases getElem?_updateFirst (fun r => r.room == payRoom)
      (fun r =>
        { r with amountPaid := r.amountPaid + amount
                 dueDate := addMonths r.dueDate months }) s.rooms i with
    h | ⟨x, hx, hp, hf⟩
  · exact Or.inl h
  · exact Or.inr ⟨x, hx, by simpa using hp, hf⟩

theorem months_bounded_applyOps :
    ∀ (ops : List Op) (s : AppState),
      (∀ op ∈ ops, op.widgetOK) →
      (∀ p ∈ s.payments, 1 ≤ p.monthsPaid ∧ p.monthsPaid ≤ 24) →
      ∀ p ∈ (applyOps s ops).payments,
        1 ≤ p.monthsPaid ∧ p.monthsPaid ≤ 24 := by
  intro ops
  induction ops with
  | nil => intro s _ hbase p hp; exact hbase p hp
  | cons op ops ih =>
      intro s hops hbase p hp
      rw [applyOps, List.foldl_cons] at hp
      refine ih (applyOp s op) (fun o ho => hops o (List.mem_cons_of_mem _ ho))
        ?_ p hp
      match op with
      | .edit room f => exact hbase
      | .pay room date amount monthsP =>
          intro q hq
          rcases List.mem_append.mp hq with hq | hq
          · exact hbase q hq
          · rw [List.mem_singleton] at hq
            subst hq
            exact ⟨(hops _ (List.mem_cons_self _ _)).2.1,
              (hops _ (List.mem_cons_self _ _)).2.2⟩

/-- C10: every payment in a journal built through the interface from a
fresh ledger has a months-paid count between 1 and 24 (the form widget's
bounds), so the monthly-profit division `amount / months` never has a zero
denominator. -/
theorem c10_months_paid_bounded (d : Date) (ops : List Op)
    (hops : ∀ op ∈ ops, op.widgetOK) :
    ∀ p ∈ (applyOps ⟨defaultRooms d, []⟩ ops).payments,
      1 ≤ p.monthsPaid ∧ p.monthsPaid ≤ 24 ∧ ((p.monthsPaid : ℚ) ≠ 0) := by
  intro p hp
  have h := months_bounded_applyOps ops ⟨defaultRooms d, []⟩ hops
    (fun q hq => absurd hq (List.not_mem_nil q)) p hp
  refine ⟨h.1, h.2, ?_⟩
  have h1 := h.1
  exact Nat.cast_ne_zero.mpr (by omega)

/-- Concrete instance of the months-bound claim, for a one-payment journal
built through the interface. -/
theorem c10_months_paid_bounded_witness :
    1 ≤ (1 : Nat) ∧ (1 : Nat) ≤ 24 ∧ (((1 : Nat) : ℚ) ≠ 0) :=
  c10_months_paid_bounded ⟨2024, 1, 1⟩
    [.pay "Room 1" ⟨2024, 1, 15⟩ 1000000 1]
    (by
      intro op hop
      rw [List.mem_singleton] at hop
      subst hop
      exact ⟨by norm_num, by decide, by decide⟩)
    ⟨"Room 1", ⟨2024, 1, 15⟩, 1000000, 1⟩
    (List.mem_singleton.mpr rfl)

/-- The spec's cross-component invariant, stated over the app state: every
ledger row's cumulative amount paid equals the journal's per-room total. -/
def SumInv (s : AppState) : Prop :=
  ∀ r ∈ s.rooms, r.amountPaid = total_paid_for_room s.payments r.room

theorem total_paid_append (ps : List Payment) (q : Payment) (room : String) :
    total_paid_for_room (ps ++ [q]) room =
      total_paid_for_room ps room +
        (if q.room == room then q.amountPaid else 0) := by
  by_cases h : q.room == room <;>
    simp [total_paid_for_room, List.filter_append, h]

theorem map_room_updateFirst (p : Room → Bool) (f : Room → Room)
    (hf : ∀ r, (f r).room = r.room) :
    ∀ rooms : List Room,
      (updateFirst p f rooms).map Room.room = rooms.map Room.room := by
  intro rooms
  induction rooms with
  | nil => rfl
  | cons x xs ih =>
      by_cases hx : p x
      · rw [updateFirst, if_pos hx, List.map_cons, List.map_cons, hf x]
      · rw [updateFirst, if_neg hx, List.map_cons, List.map_cons, ih]

theorem mem_updateFirst (p : α → Bool) (g : α → α) :
    ∀ (l : List α) (y : α), y ∈ updateFirst p g l →
      y ∈ l ∨ ∃ x, l.find? p = some x ∧ y = g x := by
  intro l
  induction l with
  | nil => intro y hy; exact Or.inl hy
  | cons x xs ih =>
      intro y hy
      by_cases hx : p x
      · rw [updateFirst, if_pos hx] at hy
        rcases List.mem_cons.mp hy with hy | hy
        · exact Or.inr ⟨x, List.find?_cons_of_pos _ hx, hy⟩
        · exact Or.inl (List.mem_cons_of_mem _ hy)
      · rw [updateFirst, if_neg hx] at hy
        rcases List.mem_cons.mp hy with hy | hy
        · exact Or.inl (hy ▸ List.mem_cons_self _ _)
        · rcases ih y hy with h | ⟨z, hz, hyz⟩
          · exact Or.inl (List.mem_cons_of_mem _ h)
          · exact Or.inr ⟨z, by rw [List.find?_cons_of_neg _ hx]; exact hz, hyz⟩

theorem updateFirst_pay_sum (payRoom : String) (amount : ℚ) (months : Nat)
    (oldSum : String → ℚ) :
    ∀ rooms : List Room, (rooms.map Room.room).Nodup →
      (∀ r ∈ rooms, r.amountPaid = oldSum r.room) →
      ∀ r' ∈ updateFirst (fun r => r.room == payRoom)
          (fun r =>
            { r with amountPaid := r.amountPaid + amount
                     dueDate := addMonths r.dueDate months }) rooms,
        r'.amountPaid =
          oldSum r'.room + (if payRoom == r'.room then amount else 0) := by
  intro rooms
  induction rooms with
  | nil => intro _ _ r' hr'; exact absurd hr' (List.not_mem_nil r')
  | cons x xs ih =>
      intro hnd hinv r' hr'
      rw [List.map_cons, List.nodup_cons] at hnd
      by_cases hx : (x.room == payRoom)
      · rw [updateFirst, if_pos hx] at hr'
        have hxeq : x.room = payRoom := by simpa using hx
        rcases List.mem_cons.mp hr' with hr' | hr'
        · subst hr'
          have : payRoom == x.room := by simp [hxeq]
          rw [if_pos this, hinv x (List.mem_cons_self _ _)]
        · have hmem : r'.room ∈ xs.map Room.room :=
            List.mem_map_of_mem Room.room hr'
          have hne : payRoom ≠ r'.room := fun he =>
            hnd.1 (by rw [hxeq, he]; exact hmem)
          rw [if_neg (by simpa using hne),
            hinv r' (List.mem_cons_of_mem _ hr'), add_zero]
      · rw [updateFirst, if_neg hx] at hr'
        rcases List.mem_cons.mp hr' with hr' | hr'
        · subst hr'
          have hxne : r'.room ≠ payRoom := by simpa using hx
          rw [if_neg (show ¬((payRoom == r'.room) = true) from by
              simp [Ne.symm hxne]),
            hinv r' (List.mem_cons_self _ _), add_zero]
        · exact ih hnd.2 (fun r hr => hinv r (List.mem_cons_of_mem _ hr)) r' hr'

/-- Whether an interface operation leaves the "Amount Paid" column faithful:
a payment submit always does; an edit-form submit does exactly when the
submitted "Amount Paid" value equals the selected room's current one. -/
def editKeepsAmount (s : AppState) : Op → Prop
  | .edit room f => ∀ r, getRoom s.rooms room = some r →
      f.amountPaid = r.amountPaid
  | .pay _ _ _ _ => True

/-- A sequence of operations in which every edit-form submit re-enters the
room's current "Amount Paid" value unchanged. -/
inductive KeepsAmounts : AppState → List Op → Prop
  | nil (s : AppState) : KeepsAmounts s []
  | cons {s : AppState} {op : Op} {ops : List Op} :
      editKeepsAmount s op → KeepsAmounts (applyOp s op) ops →
      KeepsAmounts s (op :: ops)

theorem sumInv_applyOp (s : AppState) (op : Op)
    (hnd : (s.rooms.map Room.room).Nodup) (hinv : SumInv s)
    (hop : editKeepsAmount s op) :
    SumInv (applyOp s op) ∧ ((applyOp s op).rooms.map Room.room).Nodup := by
  match op with
  | .edit room f =>
      constructor
      · intro r' hr'
        rcases mem_updateFirst _ _ s.rooms r' hr' with h | ⟨x, hx, rfl⟩
        · exact hinv r' h
        · have hfind : getRoom s.rooms room = some x := hx
          show f.amountPaid = total_paid_for_room s.payments x.room
          rw [hop x hfind, hinv x (List.mem_of_find?_eq_some hx)]
      · rw [show (applyOp s (Op.edit room f)).rooms =
            edit_form_submit s.rooms room f from rfl, edit_form_submit,
          map_room_updateFirst _
            (fun r =>
              { r with
                tenantName := f.tenantName
                contactInfo := f.contactInfo
                rentPrice := f.rentPrice
                amountPaid := f.amountPaid
                contractTerm := f.contractTerm
                startDate := f.startDate
                endDate := f.endDate
                dueDate := f.dueDate
                notes := f.notes })
            (fun r => rfl) s.rooms]
        exact hnd
  | .pay payRoom date amount months =>
      constructor
      · intro r' hr'
        have hsum := updateFirst_pay_sum payRoom amount months
          (total_paid_for_room s.payments) s.rooms hnd hinv r' hr'
        rw [hsum]
        exact (total_paid_append s.payments ⟨payRoom, date, amount, months⟩
          r'.room).symm
      · rw [show (applyOp s (Op.pay payRoom date amount months)).rooms =
            updateFirst (fun r => r.room == payRoom)
              (fun r =>
                { r with
                  amountPaid := r.amountPaid + amount
                  dueDate := addMonths r.dueDate months }) s.rooms from rfl,
          map_room_updateFirst _
            (fun r =>
              { r with
                amountPaid := r.amountPaid + amount
                dueDate := addMonths r.dueDate months })
            (fun r => rfl) s.rooms]
        exact hnd

theorem sumInv_applyOps :
    ∀ (ops : List Op) (s : AppState),
      (s.rooms.map Room.room).Nodup → SumInv s → KeepsAmounts s ops →
        SumInv (applyOps s ops) := by
  intro ops
  induction ops with
  | nil => intro s _ hinv _; exact hinv
  | cons op ops ih =>
      intro s hnd hinv hka
      cases hka with
      | cons hop hrest =>
          have hstep := sumInv_applyOp s op hnd hinv hop
          rw [applyOps, List.foldl_cons]
          exact ih (applyOp s op) hstep.2 hstep.1 hrest

/-- C1 is false as the spec states it: a single successful "update room
fields" operation (an edit-form submit the widgets accept) sets Room 1's
amount paid to 5 while the journal — still empty — sums to 0, so the
invariant does not survive sequences that include room-field edits. -/
theorem c1_edit_breaks_sum_invariant :
    (Op.edit "Room 1"
        ⟨"", "", 0, 5, "1 month", ⟨2024, 1, 1⟩, ⟨2024, 1, 1⟩, ⟨2024, 1, 1⟩,
          ""⟩).widgetOK ∧
      ¬ SumInv (applyOps ⟨defaultRooms ⟨2024, 1, 1⟩, []⟩
          [.edit "Room 1"
            ⟨"", "", 0, 5, "1 month", ⟨2024, 1, 1⟩, ⟨2024, 1, 1⟩,
              ⟨2024, 1, 1⟩, ""⟩]) := by
  constructor
  · exact ⟨le_refl 0, by norm_num, by decide⟩
  · intro hinv
    have h := hinv
      { room := "Room 1", tenantName := "", contactInfo := "", rentPrice := 0,
        amountPaid := 5, contractTerm := "1 month", startDate := ⟨2024, 1, 1⟩,
        endDate := ⟨2024, 1, 1⟩, dueDate := ⟨2024, 1, 1⟩, notes := "" }
      (List.mem_cons_self _ _)
    have h2 : (5 : ℚ) = 0 := h
    norm_num at h2

/-- C1 (amended): starting from the fresh five-room ledger, after every
sequence of interface operations in which each edit-form submit re-enters
the selected room's current "Amount Paid" unchanged, every room's
cumulative amount paid equals the journal's per-room payment total.
Edit-form submits can set "Amount Paid" to an arbitrary value, and such an
edit breaks the equality. -/
theorem c1_amount_paid_matches_journal_sum (d : Date) (ops : List Op)
    (hka : KeepsAmounts ⟨defaultRooms d, []⟩ ops) :
    SumInv (applyOps ⟨defaultRooms d, []⟩ ops) := by
  refine sumInv_applyOps ops _ ?_ ?_ hka
  · rw [show (AppState.mk (defaultRooms d) []).rooms = defaultRooms d from rfl,
      show (defaultRooms d).map Room.room =
        ["Room 1", "Room 2", "Room 3", "Room 4", "Room 5"] from rfl]
    decide
  · intro r hr
    simp only [defaultRooms, List.mem_map] at hr
    obtain ⟨i, -, rfl⟩ := hr
    rfl

/-- Concrete instance of the amended invariant: one interface payment on
the fresh ledger keeps every room's amount paid equal to its journal
total. -/
theorem c1_amount_paid_matches_journal_sum_witness :
    SumInv (applyOps ⟨defaultRooms ⟨2024, 1, 1⟩, []⟩
        [.pay "Room 1" ⟨2024, 1, 15⟩ 1000000 1]) :=
  c1_amount_paid_matches_journal_sum ⟨2024, 1, 1⟩
    [.pay "Room 1" ⟨2024, 1, 15⟩ 1000000 1]
    (KeepsAmounts.cons trivial (KeepsAmounts.nil _))

/-- C4 is false as the spec states it: the payment form accepts an amount
of exactly 0 (`min_value=0.0` is inclusive) and the handler performs no
validation, so a zero-amount payment is appended to the journal and the
room's due date still advances — the state does not stay unchanged and no
`InvalidInput` failure occurs. -/
theorem c4_zero_amount_payment_accepted :
    (Op.pay "Room 1" ⟨2024, 1, 15⟩ 0 1).widgetOK ∧
      (payment_submitted ⟨defaultRooms ⟨2024, 1, 1⟩, []⟩ "Room 1"
          ⟨2024, 1, 15⟩ 0 1).payments =
        [⟨"Room 1", ⟨2024, 1, 15⟩, 0, 1⟩] ∧
      (getRoom (payment_submitted ⟨defaultRooms ⟨2024, 1, 1⟩, []⟩ "Room 1"
          ⟨2024, 1, 15⟩ 0 1).rooms "Room 1").map Room.dueDate =
        some ⟨2024, 2, 1⟩ := by
  refine ⟨⟨le_refl 0, by decide, by decide⟩, rfl, ?_⟩
  show some (addMonths ⟨2024, 1, 1⟩ 1) = some ⟨2024, 2, 1⟩
  exact congrArg some (by decide)

/-- C4 (amended): the payment form's widget rejects strictly negative
amounts, but an amount of exactly 0 passes: the handler appends the
zero-amount payment to the journal, leaves the room's amount paid at its
previous value (adding 0), and still advances the due date by the chosen
number of months. -/
theorem c4_negative_rejected_zero_recorded :
    (∀ (payRoom : String) (date : Date) (amount : ℚ) (months : Nat),
      amount < 0 → ¬ (Op.pay payRoom date amount months).widgetOK) ∧
      (∀ (s : AppState) (payRoom : String) (date : Date) (months : Nat),
        (payment_submitted s payRoom date 0 months).payments =
          s.payments ++ [⟨payRoom, date, 0, months⟩]) ∧
      (∀ (s : AppState) (payRoom : String) (date : Date) (months : Nat)
          (r : Room), getRoom s.rooms payRoom = some r →
        getRoom (payment_submitted s payRoom date 0 months).rooms payRoom =
          some { r with amountPaid := r.amountPaid
                        dueDate := addMonths r.dueDate months }) := by
  refine ⟨?_, fun s payRoom date months => rfl, ?_⟩
  · intro payRoom date amount months hneg hOK
    obtain ⟨h0, -, -⟩ := hOK
    exact absurd h0 (not_le.mpr hneg)
  · intro s payRoom date months r hr
    rw [getRoom_payment_submitted, if_pos rfl, hr]
    simp

/-- Concrete instance of the amended payment-validation claim: a negative
amount is rejected by the form, and a zero-amount payment on the fresh
ledger is recorded while leaving Room 1's amount paid at 0. -/
theorem c4_negative_rejected_zero_recorded_witness :
    (¬ (Op.pay "Room 1" ⟨2024, 1, 15⟩ (-1) 1).widgetOK) ∧
      getRoom (payment_submitted ⟨defaultRooms ⟨2024, 1, 1⟩, []⟩ "Room 1"
          ⟨2024, 1, 15⟩ 0 1).rooms "Room 1" =
        some { room := "Room 1", tenantName := "", contactInfo := "",
               rentPrice := 0, amountPaid := 0, contractTerm := "1 month",
               startDate := ⟨2024, 1, 1⟩, endDate := ⟨2024, 1, 1⟩,
               dueDate := addMonths ⟨2024, 1, 1⟩ 1, notes := "" } :=
  ⟨c4_negative_rejected_zero_recorded.1 "Room 1" ⟨2024, 1, 15⟩ (-1) 1
      (by norm_num),
    c4_negative_rejected_zero_recorded.2.2 ⟨defaultRooms ⟨2024, 1, 1⟩, []⟩
      "Room 1" ⟨2024, 1, 15⟩ 1
      { room := "Room 1", tenantName := "", contactInfo := "", rentPrice := 0,
        amountPaid := 0, contractTerm := "1 month", startDate := ⟨2024, 1, 1⟩,
        endDate := ⟨2024, 1, 1⟩, dueDate := ⟨2024, 1, 1⟩, notes := "" }
      rfl⟩
